import Mathlib

/-!
Shallow embedding of the `gitlab-devops-helpers` scripts
(`set-env-vars.ts`, `remove-env-vars.ts`, `remove-pipelines.ts`).

The remote GitLab API is modelled as a response function supplied to each
operation; network requests are recorded as explicit values so that theorems
can speak about which calls a run issues and in which order.  HTTP request
headers (`PRIVATE-TOKEN`, `Content-Type`) are constants of the configuration
and are elided from the request model; methods, URLs and JSON bodies are kept.
-/

namespace GitlabHelpers

/-- JavaScript values as produced by `JSON.parse` (numbers kept as `Int`;
no claim depends on float rendering). -/
inductive Json where
  | str (s : String)
  | num (n : Int)
  | bool (b : Bool)
  | null
  | arr (xs : List Json)
  | obj (kvs : List (String × Json))
deriving BEq

/-- JavaScript `typeof` on a parsed JSON value (`typeof null` and
`typeof []` are both `"object"`). -/
def jsTypeof : Json → String
  | .str _ => "string"
  | .num _ => "number"
  | .bool _ => "boolean"
  | .null => "object"
  | .arr _ => "object"
  | .obj _ => "object"

/-- JavaScript `value === null`. -/
def isJsNull : Json → Bool
  | .null => true
  | _ => false

/-- The check at the top of `set-env-vars` `main`:
`typeof envVariables === "object" && envVariables !== null`. -/
def isNonNullJsObject (j : Json) : Bool :=
  jsTypeof j == "object" && !(isJsNull j)

/-- Semantics of `Object.entries` on the values that pass the non-null-object check:
own enumerable entries of an object, or index/value pairs of an array. -/
def jsEntries : Json → List (String × Json)
  | .obj kvs => kvs
  | .arr xs => (xs.enum).map (fun p => (toString p.1, p.2))
  | _ => []

/-- The `typeof value === "string" || "number" || "boolean"` test of
`set-env-vars` `main`. -/
def isPrimitiveValue : Json → Bool
  | .str _ => true
  | .num _ => true
  | .bool _ => true
  | _ => false

/-- JavaScript `String(value)` on the primitive values accepted above. -/
def jsString : Json → String
  | .str s => s
  | .num n => toString n
  | .bool b => if b then "true" else "false"
  | .null => "null"
  | .arr _ => ""
  | .obj _ => ""

/-- Hexadecimal digit (upper case), for percent-encoding. -/
def hexDigit (n : Nat) : Char :=
  if n < 10 then Char.ofNat (48 + n) else Char.ofNat (55 + n)

/-- Percent escape of one byte. -/
def percentEncodeByte (b : UInt8) : String :=
  String.mk [Char.ofNat 37, hexDigit (b.toNat / 16), hexDigit (b.toNat % 16)]

/-- Characters `encodeURIComponent` leaves unescaped
(`A–Z a–z 0–9 - _ . ! ~ * ' ( )`). -/
def uriUnreserved (c : Char) : Bool :=
  c.isAlphanum ||
    c ∈ [Char.ofNat 45, Char.ofNat 95, Char.ofNat 46, Char.ofNat 33,
         Char.ofNat 126, Char.ofNat 42, Char.ofNat 39, Char.ofNat 40,
         Char.ofNat 41]

/-- Model of JavaScript `encodeURIComponent`: unreserved characters pass
through, every other character is replaced by the `%XX` escapes of its
UTF-8 bytes. -/
def encodeURIComponent (s : String) : String :=
  String.join <| s.data.map fun c =>
    if uriUnreserved c then String.singleton c
    else String.join (((String.singleton c).toUTF8.toList).map percentEncodeByte)

inductive HttpMethod where
  | get
  | put
  | post
  | delete
deriving Repr, BEq, DecidableEq

/-- JSON body sent by the variable create/update calls.  The update (PUT)
body carries no `key` field; the create (POST) body does. -/
structure VarPayload where
  key : Option String
  value : String
  «protected» : Bool
  masked : Bool
  environment_scope : String
deriving Repr, BEq, DecidableEq

/-- A recorded network request (headers elided, see module comment). -/
structure Request where
  method : HttpMethod
  url : String
  body : Option VarPayload
deriving Repr, BEq, DecidableEq

/-- Model of `response.ok`: status in the 200–299 range. -/
def isOkStatus (status : Nat) : Bool :=
  200 ≤ status && status < 300

/-- Startup configuration (already validated by the zod schema). -/
structure Config where
  apiUrl : String
  projectId : String
  environment : String
deriving Repr, BEq, DecidableEq

/-- The project variables URL: apiUrl, then /projects/, the project id,
and /variables. -/
def variablesUrl (cfg : Config) : String :=
  cfg.apiUrl ++ "/projects/" ++ cfg.projectId ++ "/variables"

/-- URL of the update attempt in `setGitLabVariable`:
the variables URL extended with the encoded key and the
`filter[environment_scope]` query parameter. -/
def updateVariableUrl (cfg : Config) (key : String) : String :=
  variablesUrl cfg ++ "/" ++ encodeURIComponent key ++
    "?filter[environment_scope]=" ++ encodeURIComponent cfg.environment

/-- The PUT request issued first by `setGitLabVariable`. -/
def updateVariableRequest (cfg : Config) (key value : String) : Request :=
  { method := .put
    url := updateVariableUrl cfg key
    body := some
      { key := none
        value := value
        «protected» := false
        masked := false
        environment_scope := cfg.environment } }

/-- The POST request issued by `setGitLabVariable` when the update
returned 404. -/
def createVariableRequest (cfg : Config) (key value : String) : Request :=
  { method := .post
    url := variablesUrl cfg
    body := some
      { key := some key
        value := value
        «protected» := false
        masked := false
        environment_scope := cfg.environment } }

/-- Embedding of `setGitLabVariable` from `set-env-vars.ts`: try the update (PUT); if its
status is 404, fall back to the create (POST); any other non-ok status of
either response throws.  Returns the issued calls with their response
statuses, and whether the upsert succeeded.  `remote` maps a request to the
status the API answers with. -/
def setGitLabVariable (cfg : Config) (remote : Request → Nat)
    (key value : String) : List (Request × Nat) × Bool :=
  let updateReq := updateVariableRequest cfg key value
  let updateStatus := remote updateReq
  if updateStatus == 404 then
    let createReq := createVariableRequest cfg key value
    let createStatus := remote createReq
    ([(updateReq, updateStatus), (createReq, createStatus)], isOkStatus createStatus)
  else
    ([(updateReq, updateStatus)], isOkStatus updateStatus)

/-- Outcome of one run of the `set-env-vars` entry point.
`itemRuns` records, per processed key and in entry order, the calls made by
`setGitLabVariable` and whether it succeeded (each promise carries a
`.catch`, so a per-item failure is logged and swallowed).  `warnings` are
the skipped-key warnings.  `summaryCount` is the count printed by the final
"Successfully set ... variables" line (`none` when the run aborted before
reaching it). -/
structure SetRunResult where
  exitCode : Nat
  itemRuns : List (String × (List (Request × Nat) × Bool))
  warnings : List String
  summaryCount : Option Nat
deriving BEq

/-- Keys whose upsert failed in a `set-env-vars` run. -/
def SetRunResult.failedKeys (r : SetRunResult) : List String :=
  (r.itemRuns.filter fun it => !it.2.2).map Prod.fst

/-- All network calls of a `set-env-vars` run, in dispatch order. -/
def SetRunResult.calls (r : SetRunResult) : List (Request × Nat) :=
  r.itemRuns.flatMap fun it => it.2.1

/-- Embedding of `main` of `set-env-vars.ts`, together with the `existsSync` guard that
runs before it.  `fileExists` models `existsSync(ENV_FILE_PATH)`; `parsed`
is the result of `JSON.parse` on the file contents (`none` = parse threw).
A missing file, a parse error, or a top-level value failing the
non-null-object check exits 1 before any network call.  Otherwise every
primitive-valued entry is dispatched through `setGitLabVariable`; the
per-item `.catch` means `Promise.all` always resolves and the run completes
with exit code 0, printing the success count. -/
def setEnvVarsRun (cfg : Config) (remote : Request → Nat)
    (fileExists : Bool) (parsed : Option Json) : SetRunResult :=
  if !fileExists then
    { exitCode := 1, itemRuns := [], warnings := [], summaryCount := none }
  else
    match parsed with
    | none =>
      { exitCode := 1, itemRuns := [], warnings := [], summaryCount := none }
    | some envVariables =>
      if !isNonNullJsObject envVariables then
        { exitCode := 1, itemRuns := [], warnings := [], summaryCount := none }
      else
        let entries := jsEntries envVariables
        let itemRuns := (entries.filter fun kv => isPrimitiveValue kv.2).map
          fun kv => (kv.1, setGitLabVariable cfg remote kv.1 (jsString kv.2))
        let warnings := (entries.filter fun kv => !isPrimitiveValue kv.2).map
          fun kv => "Warning: Skipping non-primitive value for key: " ++ kv.1
        let count := (itemRuns.filter fun it => it.2.2).length
        { exitCode := 0, itemRuns := itemRuns, warnings := warnings,
          summaryCount := some count }

/-! ### `remove-env-vars.ts`: paginated lister and bulk parallel delete -/

/-- A CI/CD variable as listed by the API. -/
structure GVar where
  key : String
  environment_scope : String
deriving Repr, BEq, DecidableEq

/-- Details of a failed HTTP response
(`response.status`, `response.statusText`, body text). -/
structure FailInfo where
  status : Nat
  statusText : String
  body : String
deriving Repr, BEq, DecidableEq

/-- Model of the remote variable collection as the listing endpoint serves
it: the full item sequence, the page size the server paginates with, and an
optional HTTP-level failure per page number. -/
structure VarsRemote where
  items : List GVar
  pageSize : Nat
  pageFailure : Nat → Option FailInfo

/-- Page `page` (1-based) of a collection paginated with `perPage` items
per page. -/
def pageOf {α : Type} (items : List α) (perPage page : Nat) : List α :=
  (items.drop ((page - 1) * perPage)).take perPage

/-- Value of the `x-total-pages` response header: ⌈N / P⌉. -/
def totalPagesHeader (r : VarsRemote) : Nat :=
  (r.items.length + r.pageSize - 1) / r.pageSize

/-- One page fetch of `fetchEnvironmentVariables`: a non-ok response turns
into the thrown `Failed to fetch variables: ...` error. -/
def fetchVarsPage (r : VarsRemote) (page : Nat) : Except String (List GVar) :=
  match r.pageFailure page with
  | some f =>
    .error ("Failed to fetch variables: " ++ toString f.status ++ " "
      ++ f.statusText ++ " - " ++ f.body)
  | none => .ok (pageOf r.items r.pageSize page)

/-- The `while (hasMorePages)` loop of `fetchEnvironmentVariables`: fetch a
page, append its items, read `x-total-pages`, continue while
`page < totalPages`.  Returns the pages fetched (in order) and either the
accumulated items or the first fetch error. -/
def fetchVarsLoop (r : VarsRemote) (page : Nat) (acc : List GVar) :
    List Nat × Except String (List GVar) :=
  match fetchVarsPage r page with
  | .error e => ([page], .error e)
  | .ok vars =>
    let acc := acc ++ vars
    if h : page < totalPagesHeader r then
      let rec_result := fetchVarsLoop r (page + 1) acc
      (page :: rec_result.1, rec_result.2)
    else
      ([page], .ok acc)
termination_by totalPagesHeader r - page

/-- Embedding of `fetchEnvironmentVariables` from `remove-env-vars.ts`: paginated listing
starting at page 1 with an empty accumulator. -/
def fetchEnvironmentVariables (r : VarsRemote) :
    List Nat × Except String (List GVar) :=
  fetchVarsLoop r 1 []

/-- The DELETE request issued by `deleteVariable(key)`: the URL is built
from the key alone — no environment-scope parameter. -/
def deleteVariableRequest (cfg : Config) (key : String) : Request :=
  { method := .delete
    url := variablesUrl cfg ++ "/" ++ encodeURIComponent key
    body := none }

/-- Outcome of one run of the `remove-env-vars` entry point.  `summary` is
the printed Summary block `(total processed, successfully deleted, failed)`,
`none` when the run ended before printing it (listing failure or empty
collection). -/
structure EnvRunResult where
  exitCode : Nat
  deleteCalls : List Request
  summary : Option (Nat × Nat × Nat)
deriving Repr, BEq, DecidableEq

/-- Embedding of `removeAllEnvironmentVariables` from `remove-env-vars.ts`: list all
variables (fatal on failure), return early when none, otherwise delete all
of them via `Promise.allSettled` (every deletion attempted), count fulfilled
and rejected outcomes, print the summary, and exit 1 iff any deletion
failed.  `deleteOk` tells whether the API answers a given delete request
with an ok status. -/
def removeAllEnvironmentVariables (cfg : Config) (r : VarsRemote)
    (deleteOk : Request → Bool) : EnvRunResult :=
  match (fetchEnvironmentVariables r).2 with
  | .error _ => { exitCode := 1, deleteCalls := [], summary := none }
  | .ok vars =>
    if vars.length == 0 then
      { exitCode := 0, deleteCalls := [], summary := none }
    else
      let calls := vars.map fun v => deleteVariableRequest cfg v.key
      let results := calls.map deleteOk
      let successes := (results.filter (· == true)).length
      let failures := (results.filter (· == false)).length
      { exitCode := if failures > 0 then 1 else 0
        deleteCalls := calls
        summary := some (vars.length, successes, failures) }

/-! ### `remove-pipelines.ts`: rate-limited sequential deletion

The remote project is a list of pipeline ids; a successful DELETE removes
the id from the collection, and the listing endpoint paginates whatever the
collection currently holds.  Runs are recorded as event traces. -/

inductive PipeEv where
  /-- A page fetch that answered ok, with the number of items returned. -/
  | fetchPage (page count : Nat)
  /-- A page fetch that answered non-ok (throws in `fetchPipelines`). -/
  | fetchFail (page : Nat)
  /-- A DELETE of one pipeline id and whether the response was ok. -/
  | del (id : Nat) (ok : Bool)
  /-- A pause: await sleep(DELAY_MS). -/
  | sleep (ms : Nat)
deriving Repr, BEq, DecidableEq

def isDelEv : PipeEv → Bool
  | .del _ _ => true
  | _ => false

/-- Number of delete calls recorded in a trace. -/
def numDels (tr : List PipeEv) : Nat :=
  (tr.filter isDelEv).length

/-- The pipeline ids a trace attempts to delete, in order. -/
def attemptedIds (tr : List PipeEv) : List Nat :=
  tr.filterMap fun e => match e with
    | .del i _ => some i
    | _ => none

/-- Whether a trace contains any delete call. -/
def containsDel (tr : List PipeEv) : Bool :=
  tr.any isDelEv

/-- Whether a trace records any failed operation
(a non-ok delete or a non-ok page fetch). -/
def hasFailureEv (tr : List PipeEv) : Bool :=
  tr.any fun e => match e with
    | .del _ false => true
    | .fetchFail _ => true
    | _ => false

/-- Counts returned by the successful page fetches of a trace, in order. -/
def fetchedCounts (tr : List PipeEv) : List Nat :=
  tr.filterMap fun e => match e with
    | .fetchPage _ n => some n
    | _ => none

/-- Every delete call that is followed by a later delete call is
immediately followed by a `sleep d` pause. -/
def delsSpaced (d : Nat) : List PipeEv → Bool
  | [] => true
  | PipeEv.del _ _ :: rest =>
    (!containsDel rest ||
      (match rest with
       | PipeEv.sleep ms :: _ => ms == d
       | _ => false)) && delsSpaced d rest
  | _ :: rest => delsSpaced d rest

/-- The `for (const pipeline of pipelines)` loop of `remove-pipelines.ts`
`main`: delete each pipeline of the fetched page in order; a successful
delete increments `totalDeleted` and is followed by `await sleep(DELAY_MS)`;
a failed delete throws, aborting the loop (no sleep, no further item).
Returns (trace, number deleted, aborted?). -/
def deletePipelinesLoop (deleteOk : Nat → Bool) (delayMs : Nat) :
    List Nat → List PipeEv × Nat × Bool
  | [] => ([], 0, false)
  | id :: rest =>
    if deleteOk id then
      let r := deletePipelinesLoop deleteOk delayMs rest
      (PipeEv.del id true :: PipeEv.sleep delayMs :: r.1, r.2.1 + 1, r.2.2)
    else
      ([PipeEv.del id false], 0, true)

/-- Erase the listed ids from the collection, one by one. -/
def eraseAll (st : List Nat) (ids : List Nat) : List Nat :=
  ids.foldl List.erase st

/-- The do-while loop (condition: pipelines.length > 0) of
`remove-pipelines.ts` `main`, over the live remote collection `st`:
fetch page `page` (a fetch failure throws → exit 1); stop with exit 0 on an
empty page; otherwise delete the fetched pipelines sequentially — an abort
exits 1, a fully successful page removes those ids from the collection and
the loop continues with `page + 1`.  `fuel` bounds the recursion; any fuel
above `st.length` is never exhausted.  Returns
(trace, totalDeleted, exit code). -/
def removePipelinesLoop (fetchFail : Nat → Bool) (deleteOk : Nat → Bool)
    (batchSize delayMs : Nat) : Nat → List Nat → Nat → List PipeEv × Nat × Nat
  | 0, _, _ => ([], 0, 1)
  | fuel + 1, st, page =>
    if fetchFail page then
      ([PipeEv.fetchFail page], 0, 1)
    else
      let pipelines := pageOf st batchSize page
      if pipelines.isEmpty then
        ([PipeEv.fetchPage page 0], 0, 0)
      else
        let r := deletePipelinesLoop deleteOk delayMs pipelines
        if r.2.2 then
          (PipeEv.fetchPage page pipelines.length :: r.1, r.2.1, 1)
        else
          let rest := removePipelinesLoop fetchFail deleteOk batchSize delayMs
            fuel (eraseAll st pipelines) (page + 1)
          (PipeEv.fetchPage page pipelines.length :: r.1 ++ rest.1,
            r.2.1 + rest.2.1, rest.2.2)

/-- One run of the `remove-pipelines` entry point, starting at page 1 with
enough fuel (`st.length + 1`) that the loop never runs out. -/
def removePipelinesRun (fetchFail : Nat → Bool) (deleteOk : Nat → Bool)
    (batchSize delayMs : Nat) (st : List Nat) : List PipeEv × Nat × Nat :=
  removePipelinesLoop fetchFail deleteOk batchSize delayMs (st.length + 1) st 1

/-- A fixed sample configuration used by concrete witnesses. -/
def cfg0 : Config :=
  { apiUrl := "https://gitlab.example.com/api/v4"
    projectId := "42"
    environment := "production" }

/-! ### Theorems -/

/-- C1: for every key-value entry handled by `setGitLabVariable`, the first
call is the PUT update scoped to \x7bkey, target environment\x7d; the POST
create with the same key, value and scope is issued iff the update answered
404; the key fails exactly when the update answered a non-404 non-success
status or the 404-triggered create answered a non-success status; and every
payload sent sets `protected := false` and `masked := false`. -/
theorem setGitLabVariable_upsert_policy (cfg : Config) (remote : Request → Nat)
    (key value : String) :
    (setGitLabVariable cfg remote key value).1.head? =
      some (updateVariableRequest cfg key value,
        remote (updateVariableRequest cfg key value))
    ∧ ((createVariableRequest cfg key value,
          remote (createVariableRequest cfg key value))
            ∈ (setGitLabVariable cfg remote key value).1
        ↔ remote (updateVariableRequest cfg key value) = 404)
    ∧ ((setGitLabVariable cfg remote key value).2 = false
        ↔ (remote (updateVariableRequest cfg key value) ≠ 404
              ∧ isOkStatus (remote (updateVariableRequest cfg key value)) = false)
          ∨ (remote (updateVariableRequest cfg key value) = 404
              ∧ isOkStatus (remote (createVariableRequest cfg key value)) = false))
    ∧ (∀ c ∈ (setGitLabVariable cfg remote key value).1,
        ∀ p, c.1.body = some p → p.«protected» = false ∧ p.masked = false) := by
  by_cases h : remote (updateVariableRequest cfg key value) = 404
  · have hb : (remote (updateVariableRequest cfg key value) == 404) = true := by
      simp [h]
    simp only [setGitLabVariable, hb, if_true]
    refine ⟨rfl, by simp [h], by simp [h], ?_⟩
    intro c hc p hp
    simp only [List.mem_cons, List.not_mem_nil, or_false] at hc
    rcases hc with hc | hc
    · subst hc
      simp only [updateVariableRequest, Option.some.injEq] at hp
      subst hp
      exact ⟨rfl, rfl⟩
    · subst hc
      simp only [createVariableRequest, Option.some.injEq] at hp
      subst hp
      exact ⟨rfl, rfl⟩
  · have hne : (createVariableRequest cfg key value,
        remote (createVariableRequest cfg key value)) ≠
        (updateVariableRequest cfg key value,
          remote (updateVariableRequest cfg key value)) := by
      intro hc
      have := congrArg (fun p => p.1.method) hc
      simp [createVariableRequest, updateVariableRequest] at this
    have hb : (remote (updateVariableRequest cfg key value) == 404) = false := by
      simp [h]
    simp only [setGitLabVariable, hb, Bool.false_eq_true, if_false]
    refine ⟨rfl, by simp [hne, h], by simp [h], ?_⟩
    intro c hc p hp
    simp only [List.mem_cons, List.not_mem_nil, or_false] at hc
    subst hc
    simp only [updateVariableRequest, Option.some.injEq] at hp
    subst hp
    exact ⟨rfl, rfl⟩

end GitlabHelpers

namespace GitlabHelpers

/-- C10: the delete request issued by the remove-environment-variables
operation is a function of the variable's key alone: two variables sharing
a key but differing in environment scope yield the identical request, the
request does not depend on the configured environment at all, and a run
issues exactly these key-only requests for the listed variables. -/
theorem deleteVariable_request_key_only (cfg : Config) (v w : GVar)
    (hk : v.key = w.key) (hscope : v.environment_scope ≠ w.environment_scope) :
    deleteVariableRequest cfg v.key = deleteVariableRequest cfg w.key
    ∧ (∀ env1 env2 : String,
        deleteVariableRequest ⟨cfg.apiUrl, cfg.projectId, env1⟩ v.key =
          deleteVariableRequest ⟨cfg.apiUrl, cfg.projectId, env2⟩ v.key)
    ∧ (deleteVariableRequest cfg v.key).body = none
    ∧ (∀ (r : VarsRemote) (dok : Request → Bool) (vars : List GVar),
        (fetchEnvironmentVariables r).2 = .ok vars →
        (removeAllEnvironmentVariables cfg r dok).deleteCalls =
          vars.map fun u => deleteVariableRequest cfg u.key) := by
  refine ⟨by rw [hk], fun e1 e2 => rfl, rfl, ?_⟩
  intro r dok vars hv
  simp only [removeAllEnvironmentVariables, hv]
  by_cases hlen : vars.length == 0
  · have hnil : vars = [] := by
      simpa using List.length_eq_zero.mp (by simpa using hlen)
    subst hnil
    simp
  · simp only [hlen, Bool.false_eq_true, if_false]

/-- Witness for C10 at a concrete configuration and a concrete pair of
variables sharing the key `DB_URL` with different scopes. -/
theorem deleteVariable_request_key_only_witness :
    (⟨"DB_URL", "production"⟩ : GVar).key = (⟨"DB_URL", "staging"⟩ : GVar).key
    ∧ deleteVariableRequest cfg0 (⟨"DB_URL", "production"⟩ : GVar).key =
        deleteVariableRequest cfg0 (⟨"DB_URL", "staging"⟩ : GVar).key :=
  ⟨rfl, (deleteVariable_request_key_only cfg0 ⟨"DB_URL", "production"⟩
    ⟨"DB_URL", "staging"⟩ rfl (by decide)).1⟩

end GitlabHelpers

namespace GitlabHelpers

/-- C9: each input-document entry whose value is non-primitive is skipped
with a warning, is excluded from the processed (attempted) entries, gets no
network call of its own, and never makes the run fail: for any key-unique
document the processed keys are exactly the primitive-valued ones, each
non-primitive key is warned about and absent from the processed keys, and
the run exits 0. -/
theorem setEnvVars_skips_nonprimitive (cfg : Config) (remote : Request → Nat)
    (kvs : List (String × Json)) (hnd : (kvs.map Prod.fst).Nodup) :
    (setEnvVarsRun cfg remote true (some (Json.obj kvs))).warnings =
      (kvs.filter fun kv => !isPrimitiveValue kv.2).map
        (fun kv => "Warning: Skipping non-primitive value for key: " ++ kv.1)
    ∧ (setEnvVarsRun cfg remote true (some (Json.obj kvs))).itemRuns.map Prod.fst =
      (kvs.filter fun kv => isPrimitiveValue kv.2).map Prod.fst
    ∧ (setEnvVarsRun cfg remote true (some (Json.obj kvs))).itemRuns.length =
      (kvs.filter fun kv => isPrimitiveValue kv.2).length
    ∧ (∀ kv ∈ kvs, isPrimitiveValue kv.2 = false →
        kv.1 ∉ (setEnvVarsRun cfg remote true (some (Json.obj kvs))).itemRuns.map Prod.fst)
    ∧ (setEnvVarsRun cfg remote true (some (Json.obj kvs))).exitCode = 0 := by
  have hrun : setEnvVarsRun cfg remote true (some (Json.obj kvs)) =
      { exitCode := 0
        itemRuns := ((jsEntries (Json.obj kvs)).filter
            fun kv => isPrimitiveValue kv.2).map
          fun kv => (kv.1, setGitLabVariable cfg remote kv.1 (jsString kv.2))
        warnings := ((jsEntries (Json.obj kvs)).filter
            fun kv => !isPrimitiveValue kv.2).map
          fun kv => "Warning: Skipping non-primitive value for key: " ++ kv.1
        summaryCount := some ((((jsEntries (Json.obj kvs)).filter
            fun kv => isPrimitiveValue kv.2).map
          fun kv => (kv.1, setGitLabVariable cfg remote kv.1 (jsString kv.2))).filter
            fun it => it.2.2).length } := by
    simp [setEnvVarsRun, isNonNullJsObject, jsTypeof, isJsNull]
  have hkeys :
      (setEnvVarsRun cfg remote true (some (Json.obj kvs))).itemRuns.map Prod.fst =
      (kvs.filter fun kv => isPrimitiveValue kv.2).map Prod.fst := by
    rw [hrun]
    simp [jsEntries, List.map_map, Function.comp]
  refine ⟨by rw [hrun]; simp [jsEntries], hkeys, ?_, ?_, by rw [hrun]⟩
  · rw [hrun]
    simp [jsEntries]
  · intro kv hkv hnp hmem
    rw [hkeys] at hmem
    rcases List.mem_map.mp hmem with ⟨kv', hkv', hfst⟩
    have hkv'mem : kv' ∈ kvs := List.mem_of_mem_filter hkv'
    have hkv'prim : isPrimitiveValue kv'.2 = true := by
      simpa using List.of_mem_filter hkv'
    have : kv' = kv := List.inj_on_of_nodup_map hnd hkv'mem hkv hfst
    rw [this, hnp] at hkv'prim
    exact Bool.false_ne_true hkv'prim

/-- Witness for C9: a concrete document with a primitive entry `A` and a
non-primitive (array-valued) entry `B`. -/
theorem setEnvVars_skips_nonprimitive_witness :
    (([("A", Json.str "x"), ("B", Json.arr [])].map
        (Prod.fst (α := String) (β := Json))).Nodup)
    ∧ (setEnvVarsRun cfg0 (fun _ => 200) true
        (some (Json.obj [("A", Json.str "x"), ("B", Json.arr [])]))).exitCode = 0 :=
  ⟨by decide, (setEnvVars_skips_nonprimitive cfg0 (fun _ => 200)
    [("A", Json.str "x"), ("B", Json.arr [])] (by decide)).2.2.2.2⟩

end GitlabHelpers

namespace GitlabHelpers

/-- Counterexample to C8: a document whose top-level value is the JSON
array `[true]` is not a key-value structure, yet the run does not abort —
it passes the `typeof === "object" && !== null` check, is processed via
`Object.entries` as the single index-keyed entry `"0"`, issues a network
call for it, and exits 0. -/
theorem setEnvVars_array_not_rejected :
    (setEnvVarsRun cfg0 (fun _ => 200) true
        (some (Json.arr [Json.bool true]))).exitCode = 0
    ∧ (setEnvVarsRun cfg0 (fun _ => 200) true
        (some (Json.arr [Json.bool true]))).itemRuns.map Prod.fst = ["0"]
    ∧ (setEnvVarsRun cfg0 (fun _ => 200) true
        (some (Json.arr [Json.bool true]))).calls ≠ [] := by
  decide

/-- C8 (amended): a missing file, a JSON parse error, or a top-level value
failing the `typeof === "object" && !== null` check aborts with exit code 1
before any network call; strings, numbers, booleans and null fail that
check — but both objects and arrays pass it (an array is processed with its
indices as keys rather than rejected). -/
theorem setEnvVars_input_validation (cfg : Config) (remote : Request → Nat) :
    (∀ parsed, (setEnvVarsRun cfg remote false parsed).exitCode = 1
        ∧ (setEnvVarsRun cfg remote false parsed).calls = [])
    ∧ ((setEnvVarsRun cfg remote true none).exitCode = 1
        ∧ (setEnvVarsRun cfg remote true none).calls = [])
    ∧ (∀ j, isNonNullJsObject j = false →
        (setEnvVarsRun cfg remote true (some j)).exitCode = 1
          ∧ (setEnvVarsRun cfg remote true (some j)).calls = [])
    ∧ (∀ s, isNonNullJsObject (Json.str s) = false)
    ∧ (∀ n, isNonNullJsObject (Json.num n) = false)
    ∧ (∀ b, isNonNullJsObject (Json.bool b) = false)
    ∧ isNonNullJsObject Json.null = false
    ∧ (∀ kvs, isNonNullJsObject (Json.obj kvs) = true)
    ∧ (∀ xs, isNonNullJsObject (Json.arr xs) = true) := by
  refine ⟨?_, ?_, ?_, ?_, ?_, ?_, ?_, ?_, ?_⟩
  · intro parsed
    exact ⟨rfl, rfl⟩
  · exact ⟨rfl, rfl⟩
  · intro j hj
    constructor <;> simp [setEnvVarsRun, hj, SetRunResult.calls]
  · intro s; rfl
  · intro n; rfl
  · intro b; rfl
  · rfl
  · intro kvs; rfl
  · intro xs; rfl

/-- Witness for C8 at a concrete malformed document (top-level string). -/
theorem setEnvVars_input_validation_witness :
    isNonNullJsObject (Json.str "oops") = false
    ∧ (setEnvVarsRun cfg0 (fun _ => 200) true
        (some (Json.str "oops"))).exitCode = 1 :=
  ⟨by decide, ((setEnvVars_input_validation cfg0 (fun _ => 200)).2.2.1
    (Json.str "oops") (by decide)).1⟩

/-- Counterexample to C2: a `set-env-vars` run in which the single entry
`A` fails (the remote answers 500 to every call) still exits 0 — the
per-item `.catch` swallows the failure and `main` never calls
`process.exit` with a non-zero code. -/
theorem setEnvVars_partial_failure_exits_zero :
    (setEnvVarsRun cfg0 (fun _ => 500) true
        (some (Json.obj [("A", Json.str "x")]))).failedKeys = ["A"]
    ∧ (setEnvVarsRun cfg0 (fun _ => 500) true
        (some (Json.obj [("A", Json.str "x")]))).exitCode = 0 := by
  decide

end GitlabHelpers

namespace GitlabHelpers

/-- Counterexample to C4: a `set-env-vars` run over the two entries `A`, `B`
in which exactly `A` fails.  Both items are attempted (K = 2, F = 1), but
the aggregate line this entry point prints — modelled in full by
`summaryCount` — carries the single number 1 (the success count K − F); no
attempted or failed tally is part of the aggregate output. -/
theorem setEnvVars_summary_reports_success_count_only :
    (setEnvVarsRun cfg0
        (fun r => if r.url = updateVariableUrl cfg0 "A" then 500 else 200) true
        (some (Json.obj [("A", Json.str "x"), ("B", Json.str "y")]))).itemRuns.length = 2
    ∧ (setEnvVarsRun cfg0
        (fun r => if r.url = updateVariableUrl cfg0 "A" then 500 else 200) true
        (some (Json.obj [("A", Json.str "x"), ("B", Json.str "y")]))).failedKeys = ["A"]
    ∧ (setEnvVarsRun cfg0
        (fun r => if r.url = updateVariableUrl cfg0 "A" then 500 else 200) true
        (some (Json.obj [("A", Json.str "x"), ("B", Json.str "y")]))).summaryCount =
      some 1 := by
  decide

/-- C4 (amended): in the unbounded-parallel mode every item is attempted
regardless of failures and positions.  The remove-environment-variables
utility's printed summary reports exactly K attempted, K − F succeeded and
F failed.  The set-variables utility attempts every primitive entry but its
aggregate line reports only the success count K − F. -/
theorem bulk_parallel_mode_summary (cfg : Config) (r : VarsRemote)
    (dok : Request → Bool) (vars : List GVar)
    (hv : (fetchEnvironmentVariables r).2 = .ok vars) (hne : vars ≠ []) :
    (removeAllEnvironmentVariables cfg r dok).deleteCalls =
      vars.map (fun u => deleteVariableRequest cfg u.key)
    ∧ (removeAllEnvironmentVariables cfg r dok).summary =
      some (vars.length,
        (vars.filter fun u => dok (deleteVariableRequest cfg u.key)).length,
        (vars.filter fun u => !dok (deleteVariableRequest cfg u.key)).length)
    ∧ (vars.filter fun u => dok (deleteVariableRequest cfg u.key)).length
        + (vars.filter fun u => !dok (deleteVariableRequest cfg u.key)).length
        = vars.length
    ∧ (∀ (remote : Request → Nat) (kvs : List (String × Json)),
        (setEnvVarsRun cfg remote true (some (Json.obj kvs))).itemRuns.map Prod.fst =
          (kvs.filter fun kv => isPrimitiveValue kv.2).map Prod.fst
        ∧ (setEnvVarsRun cfg remote true (some (Json.obj kvs))).summaryCount =
          some ((setEnvVarsRun cfg remote true (some (Json.obj kvs))).itemRuns.length
            - (setEnvVarsRun cfg remote true (some (Json.obj kvs))).failedKeys.length)) := by
  have hlen : (vars.length == 0) = false := by
    simp only [beq_eq_false_iff_ne, ne_eq, List.length_eq_zero]
    exact hne
  refine ⟨?_, ?_, ?_, ?_⟩
  · simp only [removeAllEnvironmentVariables, hv, hlen, Bool.false_eq_true, if_false]
  · simp only [removeAllEnvironmentVariables, hv, hlen, Bool.false_eq_true, if_false]
    simp [List.filter_map, List.map_map, Function.comp_def]
  · have := List.length_eq_length_filter_add
      (l := vars) (fun u => dok (deleteVariableRequest cfg u.key))
    omega
  · intro remote kvs
    have hrun : setEnvVarsRun cfg remote true (some (Json.obj kvs)) =
        { exitCode := 0
          itemRuns := ((jsEntries (Json.obj kvs)).filter
              fun kv => isPrimitiveValue kv.2).map
            fun kv => (kv.1, setGitLabVariable cfg remote kv.1 (jsString kv.2))
          warnings := ((jsEntries (Json.obj kvs)).filter
              fun kv => !isPrimitiveValue kv.2).map
            fun kv => "Warning: Skipping non-primitive value for key: " ++ kv.1
          summaryCount := some ((((jsEntries (Json.obj kvs)).filter
              fun kv => isPrimitiveValue kv.2).map
            fun kv => (kv.1, setGitLabVariable cfg remote kv.1 (jsString kv.2))).filter
              fun it => it.2.2).length } := by
      simp [setEnvVarsRun, isNonNullJsObject, jsTypeof, isJsNull]
    constructor
    · rw [hrun]
      simp [jsEntries, List.map_map, Function.comp]
    · rw [hrun]
      simp only [SetRunResult.failedKeys, List.length_map]
      congr 1
      have hsplit := List.length_eq_length_filter_add
        (l := ((jsEntries (Json.obj kvs)).filter
            fun kv => isPrimitiveValue kv.2).map
          fun kv => (kv.1, setGitLabVariable cfg remote kv.1 (jsString kv.2)))
        (fun it => it.2.2)
      have hmap := List.length_map
        ((jsEntries (Json.obj kvs)).filter fun kv => isPrimitiveValue kv.2)
        (fun kv => (kv.1, setGitLabVariable cfg remote kv.1 (jsString kv.2)))
      omega

/-- Witness for C4 at a remote holding three variables of which the middle
one fails to delete: the summary reports 3 attempted, 2 succeeded,
1 failed. -/
theorem bulk_parallel_mode_summary_witness :
    ((fetchEnvironmentVariables
        { items := [⟨"A", "production"⟩, ⟨"B", "production"⟩, ⟨"C", "production"⟩]
          pageSize := 100
          pageFailure := fun _ => none }).2 =
      .ok [⟨"A", "production"⟩, ⟨"B", "production"⟩, ⟨"C", "production"⟩])
    ∧ (removeAllEnvironmentVariables cfg0
        { items := [⟨"A", "production"⟩, ⟨"B", "production"⟩, ⟨"C", "production"⟩]
          pageSize := 100
          pageFailure := fun _ => none }
        (fun req => !(req == deleteVariableRequest cfg0 "B"))).summary =
      some (3, 2, 1) := by
  have h1 : (fetchEnvironmentVariables
      { items := [⟨"A", "production"⟩, ⟨"B", "production"⟩, ⟨"C", "production"⟩]
        pageSize := 100
        pageFailure := fun _ => none }).2 =
      .ok [⟨"A", "production"⟩, ⟨"B", "production"⟩, ⟨"C", "production"⟩] := by
    rw [fetchEnvironmentVariables, fetchVarsLoop]
    norm_num [fetchVarsPage, pageOf, totalPagesHeader]
  refine ⟨h1, ?_⟩
  rw [(bulk_parallel_mode_summary cfg0 _
    (fun req => !(req == deleteVariableRequest cfg0 "B"))
    [⟨"A", "production"⟩, ⟨"B", "production"⟩, ⟨"C", "production"⟩]
    h1 (by decide)).2.1]
  decide

end GitlabHelpers

namespace GitlabHelpers

/-- The item count never exceeds `x-total-pages · pageSize`. -/
theorem length_le_totalPages_mul (r : VarsRemote) (hP : 0 < r.pageSize) :
    r.items.length ≤ totalPagesHeader r * r.pageSize := by
  have h := Nat.lt_div_mul_add (a := r.items.length + r.pageSize - 1) hP
  unfold totalPagesHeader
  omega

/-- On a failure-free remote, a listing loop entered at a page at or past
the last page stops after that single fetch, whose page holds every item
not yet accumulated. -/
theorem fetchVarsLoop_stop (r : VarsRemote) (hP : 0 < r.pageSize)
    (hfail : ∀ p, r.pageFailure p = none) (page : Nat) (acc : List GVar)
    (h1 : 1 ≤ page) (hT : totalPagesHeader r ≤ page) :
    fetchVarsLoop r page acc =
      ([page], .ok (acc ++ r.items.drop ((page - 1) * r.pageSize))) := by
  rw [fetchVarsLoop]
  simp only [fetchVarsPage, hfail]
  rw [dif_neg (Nat.not_lt.mpr hT)]
  have htake : pageOf r.items r.pageSize page =
      r.items.drop ((page - 1) * r.pageSize) := by
    unfold pageOf
    apply List.take_of_length_le
    rw [List.length_drop]
    have h2 : totalPagesHeader r * r.pageSize ≤ page * r.pageSize :=
      Nat.mul_le_mul_right _ hT
    have h3 := length_le_totalPages_mul r hP
    have h4 : page * r.pageSize = (page - 1) * r.pageSize + r.pageSize := by
      conv_lhs => rw [show page = (page - 1) + 1 by omega]
      rw [Nat.succ_mul]
    omega
  rw [htake]

/-- On a failure-free remote, the listing loop entered at page `page ≥ 1`
visits pages `page, …, max totalPages page` in order and accumulates
exactly the items from position `(page−1)·pageSize` onward. -/
theorem fetchVarsLoop_no_failure (r : VarsRemote) (hP : 0 < r.pageSize)
    (hfail : ∀ p, r.pageFailure p = none) :
    ∀ k page acc, totalPagesHeader r - page ≤ k → 1 ≤ page →
      fetchVarsLoop r page acc =
        (List.range' page (max (totalPagesHeader r + 1 - page) 1),
          .ok (acc ++ r.items.drop ((page - 1) * r.pageSize))) := by
  intro k
  induction k with
  | zero =>
    intro page acc hk h1
    rw [fetchVarsLoop_stop r hP hfail page acc h1 (by omega),
      show max (totalPagesHeader r + 1 - page) 1 = 1 by omega, List.range'_one]
  | succ k ih =>
    intro page acc hk h1
    by_cases hlt : page < totalPagesHeader r
    · have hpages : page :: List.range' (page + 1)
          (max (totalPagesHeader r + 1 - (page + 1)) 1) =
          List.range' page (max (totalPagesHeader r + 1 - page) 1) := by
        rw [show max (totalPagesHeader r + 1 - (page + 1)) 1 =
            totalPagesHeader r - page by omega,
          show max (totalPagesHeader r + 1 - page) 1 =
            (totalPagesHeader r - page) + 1 by omega,
          List.range'_succ]
      have hitems : (acc ++ pageOf r.items r.pageSize page)
          ++ r.items.drop (page * r.pageSize) =
          acc ++ r.items.drop ((page - 1) * r.pageSize) := by
        rw [List.append_assoc]
        congr 1
        unfold pageOf
        rw [show page * r.pageSize = (page - 1) * r.pageSize + r.pageSize by
            conv_lhs => rw [show page = (page - 1) + 1 by omega]
            rw [Nat.succ_mul],
          ← List.drop_drop, List.take_append_drop]
      rw [fetchVarsLoop]
      simp only [fetchVarsPage, hfail]
      rw [dif_pos hlt]
      simp only [ih (page + 1) (acc ++ pageOf r.items r.pageSize page)
        (by omega) (by omega), Nat.add_sub_cancel]
      rw [hpages, hitems]
    · rw [fetchVarsLoop_stop r hP hfail page acc h1 (by omega),
        show max (totalPagesHeader r + 1 - page) 1 = 1 by omega, List.range'_one]

/-- C6: on a failure-free remote with N items paginated at size P ≥ 1, the
lister returns exactly the N items, in page order and within-page order
(its result is the item sequence itself), after fetching pages
`1, …, ⌈N/P⌉` — and for N = 0 it fetches only page 1 and returns the empty
sequence. -/
theorem paginated_lister_complete (r : VarsRemote) (hP : 0 < r.pageSize)
    (hfail : ∀ p, r.pageFailure p = none) :
    fetchEnvironmentVariables r =
      (List.range' 1 (max (totalPagesHeader r) 1), Except.ok r.items)
    ∧ (r.items.length = 0 →
        (fetchEnvironmentVariables r).1 = [1]
          ∧ (fetchEnvironmentVariables r).2 = Except.ok []) := by
  have h := fetchVarsLoop_no_failure r hP hfail (totalPagesHeader r) 1 []
    (by omega) (by omega)
  rw [fetchEnvironmentVariables] at *
  rw [h]
  simp only [Nat.add_sub_cancel, Nat.sub_self, Nat.zero_mul, List.drop_zero,
    List.nil_append]
  constructor
  · trivial
  · intro h0
    have hT : totalPagesHeader r = 0 := by
      unfold totalPagesHeader
      rw [h0]
      exact Nat.div_eq_of_lt (by omega)
    have hnil : r.items = [] := List.length_eq_zero.mp h0
    rw [hT, hnil]
    simp

end GitlabHelpers

namespace GitlabHelpers

/-- Witness for C6: three variables paginated two per page are listed as
pages 1 and 2 and returned complete and in order. -/
theorem paginated_lister_complete_witness :
    0 < (2 : Nat)
    ∧ fetchEnvironmentVariables
        { items := [⟨"A", "production"⟩, ⟨"B", "production"⟩, ⟨"C", "production"⟩]
          pageSize := 2
          pageFailure := fun _ => none } =
      ([1, 2],
        Except.ok [⟨"A", "production"⟩, ⟨"B", "production"⟩, ⟨"C", "production"⟩]) := by
  refine ⟨by decide, ?_⟩
  have h := (paginated_lister_complete
    { items := [⟨"A", "production"⟩, ⟨"B", "production"⟩, ⟨"C", "production"⟩]
      pageSize := 2
      pageFailure := fun _ => none } (by decide) (fun p => rfl)).1
  rw [h]
  have ht : totalPagesHeader
      { items := [⟨"A", "production"⟩, ⟨"B", "production"⟩, ⟨"C", "production"⟩]
        pageSize := 2
        pageFailure := fun _ => none } = 2 := by
    decide
  rw [ht]
  rfl

/-- On a remote whose first failing page is `f`, the listing loop entered at
any page `page ≤ f` (with `f` within the range the loop will visit) fetches
pages `page, …, f` and ends in the thrown fetch error — discarding every
item accumulated so far. -/
theorem fetchVarsLoop_failure (r : VarsRemote) (f : Nat) (fi : FailInfo)
    (hf : r.pageFailure f = some fi)
    (hbefore : ∀ p, p < f → r.pageFailure p = none) :
    ∀ k page acc, f - page ≤ k → 1 ≤ page → page ≤ f →
      f ≤ max page (totalPagesHeader r) →
      fetchVarsLoop r page acc =
        (List.range' page (f + 1 - page),
          Except.error ("Failed to fetch variables: " ++ toString fi.status ++ " "
            ++ fi.statusText ++ " - " ++ fi.body)) := by
  intro k
  induction k with
  | zero =>
    intro page acc hk h1 hpf hreach
    have hpage : page = f := by omega
    subst hpage
    rw [fetchVarsLoop]
    simp only [fetchVarsPage, hf]
    rw [show page + 1 - page = 1 by omega, List.range'_one]
  | succ k ih =>
    intro page acc hk h1 hpf hreach
    by_cases heq : page = f
    · subst heq
      rw [fetchVarsLoop]
      simp only [fetchVarsPage, hf]
      rw [show page + 1 - page = 1 by omega, List.range'_one]
    · have hlt : page < f := by omega
      have hTgt : page < totalPagesHeader r := by omega
      rw [fetchVarsLoop]
      simp only [fetchVarsPage, hbefore page hlt]
      rw [dif_pos hTgt]
      simp only [ih (page + 1) (acc ++ pageOf r.items r.pageSize page)
        (by omega) (by omega) (by omega) (by omega)]
      rw [show f + 1 - (page + 1) = f - page by omega,
        show f + 1 - page = (f - page) + 1 by omega, List.range'_succ]

/-- C7: if the first failing page `f` lies within the range of pages the
lister visits, the whole listing operation fails with the underlying cause
(the thrown page-fetch error) after fetching pages `1, …, f`, and no
partial item sequence is ever returned to the caller. -/
theorem paginated_lister_fail_fast (r : VarsRemote) (f : Nat) (fi : FailInfo)
    (hf : r.pageFailure f = some fi)
    (hbefore : ∀ p, p < f → r.pageFailure p = none)
    (h1 : 1 ≤ f) (hreach : f ≤ max 1 (totalPagesHeader r)) :
    fetchEnvironmentVariables r =
      (List.range' 1 f,
        Except.error ("Failed to fetch variables: " ++ toString fi.status ++ " "
          ++ fi.statusText ++ " - " ++ fi.body))
    ∧ ∀ vs : List GVar, (fetchEnvironmentVariables r).2 ≠ Except.ok vs := by
  have h := fetchVarsLoop_failure r f fi hf hbefore f 1 []
    (by omega) (by omega) h1 hreach
  rw [fetchEnvironmentVariables] at *
  rw [h, show f + 1 - 1 = f by omega]
  exact ⟨rfl, fun vs hvs => by simp at hvs⟩

/-- Witness for C7: a remote failing on page 1 with HTTP 500 yields the
fetch error and no item list. -/
theorem paginated_lister_fail_fast_witness :
    (({ items := ([] : List GVar)
        pageSize := 100
        pageFailure := fun p =>
          if p = 1 then some ⟨500, "Internal Server Error", "boom"⟩ else none } :
      VarsRemote)).pageFailure 1 = some ⟨500, "Internal Server Error", "boom"⟩
    ∧ fetchEnvironmentVariables
        { items := ([] : List GVar)
          pageSize := 100
          pageFailure := fun p =>
            if p = 1 then some ⟨500, "Internal Server Error", "boom"⟩ else none } =
      ([1],
        Except.error ("Failed to fetch variables: " ++ toString (500 : Nat) ++ " "
          ++ "Internal Server Error" ++ " - " ++ "boom")) := by
  refine ⟨rfl, ?_⟩
  have h := (paginated_lister_fail_fast
    { items := ([] : List GVar)
      pageSize := 100
      pageFailure := fun p =>
        if p = 1 then some ⟨500, "Internal Server Error", "boom"⟩ else none }
    1 ⟨500, "Internal Server Error", "boom"⟩ rfl
    (fun p hp => if_neg (by omega)) (by omega) (by norm_num)).1
  rw [h]
  rfl

end GitlabHelpers

namespace GitlabHelpers

/-- The sequential delete loop reports an abort exactly when its trace
contains a failed delete. -/
theorem deletePipelinesLoop_abort_eq (ok : Nat → Bool) (d : Nat) (l : List Nat) :
    (deletePipelinesLoop ok d l).2.2 = hasFailureEv (deletePipelinesLoop ok d l).1 := by
  induction l with
  | nil => rfl
  | cons id rest ih =>
    by_cases h : ok id
    · simpa [deletePipelinesLoop, h, hasFailureEv] using ih
    · simp [deletePipelinesLoop, h, hasFailureEv]

/-- Erasing a list of ids never lengthens the collection. -/
theorem eraseAll_length_le (ids : List Nat) : ∀ st : List Nat,
    (eraseAll st ids).length ≤ st.length := by
  induction ids with
  | nil => intro st; exact Nat.le_refl _
  | cons i ids ih =>
    intro st
    calc (eraseAll st (i :: ids)).length = (eraseAll (st.erase i) ids).length := rfl
    _ ≤ (st.erase i).length := ih (st.erase i)
    _ ≤ st.length := (List.erase_sublist i st).length_le

/-- Erasing a nonempty batch whose head is present strictly shrinks the
collection. -/
theorem eraseAll_length_lt (st : List Nat) (hd : Nat) (tl : List Nat)
    (hmem : hd ∈ st) : (eraseAll st (hd :: tl)).length < st.length := by
  have h1 : (eraseAll (st.erase hd) tl).length ≤ (st.erase hd).length :=
    eraseAll_length_le tl (st.erase hd)
  have h2 : (st.erase hd).length = st.length - 1 := List.length_erase_of_mem hmem
  have h3 : 0 < st.length := List.length_pos_of_mem hmem
  have h4 : (eraseAll st (hd :: tl)).length = (eraseAll (st.erase hd) tl).length := rfl
  omega

/-- A fetched page only holds ids of the current collection. -/
theorem pageOf_subset {α : Type} (st : List α) (b p : Nat) :
    pageOf st b p ⊆ st :=
  fun _ hx => List.drop_subset _ _ (List.take_subset _ _ hx)

/-- A successful page-fetch event is never a failure event. -/
theorem hasFailureEv_cons_fetchPage (p n : Nat) (tr : List PipeEv) :
    hasFailureEv (PipeEv.fetchPage p n :: tr) = hasFailureEv tr := by
  simp [hasFailureEv]

/-- Failure events distribute over trace concatenation. -/
theorem hasFailureEv_append (a b : List PipeEv) :
    hasFailureEv (a ++ b) = (hasFailureEv a || hasFailureEv b) := by
  simp [hasFailureEv]

/-- With fuel above the collection size, the pipeline-removal loop exits 0
exactly when its trace holds no failed fetch and no failed delete. -/
theorem removePipelinesLoop_exit (ff ok : Nat → Bool) (b d : Nat) :
    ∀ fuel st page, st.length < fuel →
      (removePipelinesLoop ff ok b d fuel st page).2.2 =
        (if hasFailureEv (removePipelinesLoop ff ok b d fuel st page).1
          then 1 else 0) := by
  intro fuel
  induction fuel with
  | zero => intro st page h; exact absurd h (Nat.not_lt_zero _)
  | succ fuel ih =>
    intro st page h
    by_cases hff : ff page
    · simp [removePipelinesLoop, hff, hasFailureEv]
    · have hfff : ff page = false := by simpa using hff
      by_cases hemp : (pageOf st b page).isEmpty
      · simp [removePipelinesLoop, hfff, hemp, hasFailureEv]
      · have hempf : (pageOf st b page).isEmpty = false := by simpa using hemp
        by_cases hab : (deletePipelinesLoop ok d (pageOf st b page)).2.2
        · have htr : hasFailureEv (deletePipelinesLoop ok d (pageOf st b page)).1 = true := by
            rw [← deletePipelinesLoop_abort_eq]; exact hab
          simp only [removePipelinesLoop, hfff, Bool.false_eq_true, if_false,
            hempf, hab, if_true]
          rw [hasFailureEv_cons_fetchPage, htr]
          rfl
        · have habf : (deletePipelinesLoop ok d (pageOf st b page)).2.2 = false := by
            simpa using hab
          have htr : hasFailureEv (deletePipelinesLoop ok d (pageOf st b page)).1 = false := by
            rw [← deletePipelinesLoop_abort_eq]; exact habf
          obtain ⟨hd, tl, hcons⟩ : ∃ hd tl, pageOf st b page = hd :: tl := by
            rcases hp : pageOf st b page with _ | ⟨hd, tl⟩
            · rw [hp] at hemp; simp at hemp
            · exact ⟨hd, tl, rfl⟩
          have hmem : hd ∈ st := pageOf_subset st b page (hcons ▸ List.mem_cons_self hd tl)
          have hlt : (eraseAll st (pageOf st b page)).length < fuel := by
            have := eraseAll_length_lt st hd tl hmem
            rw [← hcons] at this
            omega
          have hrec := ih (eraseAll st (pageOf st b page)) (page + 1) hlt
          simp only [removePipelinesLoop, hfff, Bool.false_eq_true, if_false,
            hempf, habf]
          rw [hasFailureEv_append, hasFailureEv_cons_fetchPage, htr, Bool.false_or]
          exact hrec

/-- C3 (evaluation at the spec's scenario): a project holding pipelines
1–25 with batch size 20 and every delete succeeding.  The run issues only
20 delete calls, not 25: after page 1's twenty pipelines are deleted the
loop requests page 2 of the 5 remaining pipelines, which is empty, so the
run stops with `totalDeleted = 20` and exit 0, leaving 5 pipelines behind —
against the script's own stated purpose of deleting all pipelines.  The two
fetches return 20 and then 0 items (not 20 and 5), and the deletes that do
happen are sequential with the configured pause between them. -/
theorem removePipelines_25_items_batch20 :
    numDels (removePipelinesRun (fun _ => false) (fun _ => true) 20 1000
      (List.range' 1 25)).1 = 20
    ∧ (removePipelinesRun (fun _ => false) (fun _ => true) 20 1000
      (List.range' 1 25)).2.1 = 20
    ∧ fetchedCounts (removePipelinesRun (fun _ => false) (fun _ => true) 20 1000
      (List.range' 1 25)).1 = [20, 0]
    ∧ delsSpaced 1000 (removePipelinesRun (fun _ => false) (fun _ => true) 20 1000
      (List.range' 1 25)).1 = true
    ∧ (removePipelinesRun (fun _ => false) (fun _ => true) 20 1000
      (List.range' 1 25)).2.2 = 0 := by
  decide

end GitlabHelpers

namespace GitlabHelpers

/-- C5: in the rate-limited sequential mode, when item `i` (1-indexed,
`i = pre.length + 1`) is the first whose deletion fails, exactly `i` delete
calls are attempted, `i − 1` succeed, the loop aborts, the attempted ids
are exactly the first `i` items in order (nothing after `i` is attempted),
and every delete that is followed by another delete is separated from it by
the configured `DELAY_MS` pause (the failing call throws before its pause,
and no further item starts). -/
theorem bulk_sequential_fail_fast (ok : Nat → Bool) (d : Nat)
    (pre : List Nat) (x : Nat) (post : List Nat)
    (hpre : ∀ y ∈ pre, ok y = true) (hx : ok x = false) :
    numDels (deletePipelinesLoop ok d (pre ++ x :: post)).1 = pre.length + 1
    ∧ (deletePipelinesLoop ok d (pre ++ x :: post)).2.1 = pre.length
    ∧ (deletePipelinesLoop ok d (pre ++ x :: post)).2.2 = true
    ∧ attemptedIds (deletePipelinesLoop ok d (pre ++ x :: post)).1 = pre ++ [x]
    ∧ delsSpaced d (deletePipelinesLoop ok d (pre ++ x :: post)).1 = true := by
  revert hpre
  induction pre with
  | nil =>
    intro hpre
    simp [deletePipelinesLoop, hx, numDels, attemptedIds, delsSpaced,
      containsDel, isDelEv]
  | cons y pre ih =>
    intro hpre
    have hy : ok y = true := hpre y (List.mem_cons_self y pre)
    have hpre' : ∀ z ∈ pre, ok z = true := fun z hz =>
      hpre z (List.mem_cons_of_mem y hz)
    obtain ⟨ih1, ih2, ih3, ih4, ih5⟩ := ih hpre'
    refine ⟨?_, ?_, ?_, ?_, ?_⟩
    · simpa [deletePipelinesLoop, hy, numDels, isDelEv] using ih1
    · simpa [deletePipelinesLoop, hy] using ih2
    · simpa [deletePipelinesLoop, hy] using ih3
    · simpa [deletePipelinesLoop, hy, attemptedIds] using ih4
    · have hxmem : (x : Nat) ∈ attemptedIds
          (deletePipelinesLoop ok d (pre ++ x :: post)).1 := by
        rw [ih4]; simp
      have hdel : containsDel (PipeEv.sleep d ::
          (deletePipelinesLoop ok d (pre ++ x :: post)).1) = true := by
        rcases List.mem_filterMap.mp hxmem with ⟨e, he, hex⟩
        have hde : isDelEv e = true := by
          cases e <;> simp_all [isDelEv]
        unfold containsDel
        rw [List.any_eq_true]
        exact ⟨e, List.mem_cons_of_mem _ he, hde⟩
      simp [deletePipelinesLoop, hy, delsSpaced, hdel, ih5]

/-- Witness for C5: items `[101, 102, 103, 104]` where the deletion of 103
is the first to fail: three attempts, two successes, abort. -/
theorem bulk_sequential_fail_fast_witness :
    (∀ y ∈ [101, 102], (fun i => i != 103) y = true)
    ∧ (fun i => i != 103) 103 = false
    ∧ (deletePipelinesLoop (fun i => i != 103) 500 ([101, 102] ++ 103 :: [104])).2.1 = 2
    ∧ attemptedIds (deletePipelinesLoop (fun i => i != 103) 500
        ([101, 102] ++ 103 :: [104])).1 = [101, 102] ++ [103] := by
  refine ⟨by decide, by decide, ?_, ?_⟩
  · exact (bulk_sequential_fail_fast (fun i => i != 103) 500 [101, 102] 103 [104]
      (by decide) (by decide)).2.1
  · exact (bulk_sequential_fail_fast (fun i => i != 103) 500 [101, 102] 103 [104]
      (by decide) (by decide)).2.2.2.1

end GitlabHelpers

namespace GitlabHelpers

/-- C2 (amended): exit-code policy per entry point.
The remove-environment-variables run exits 0 exactly when the listing
succeeded and every deletion succeeded (any listing failure or per-item
failure exits 1).  The remove-pipelines run exits 0 exactly when its trace
holds no failed fetch and no failed delete.  The set-variables run exits 1
before any network call on a missing file, a parse error, or a top-level
value that fails the object check — but once the input document passes
validation it always exits 0, even when some (or all) per-item mutations
fail. -/
theorem exit_code_policy :
    (∀ (cfg : Config) (r : VarsRemote) (dok : Request → Bool),
      ((removeAllEnvironmentVariables cfg r dok).exitCode = 0 ↔
        ∃ vars, (fetchEnvironmentVariables r).2 = Except.ok vars
          ∧ ∀ v ∈ vars, dok (deleteVariableRequest cfg v.key) = true))
    ∧ (∀ (ff ok : Nat → Bool) (b d : Nat) (st : List Nat),
      ((removePipelinesRun ff ok b d st).2.2 = 0 ↔
        hasFailureEv (removePipelinesRun ff ok b d st).1 = false))
    ∧ (∀ (cfg : Config) (remote : Request → Nat) (kvs : List (String × Json)),
        (setEnvVarsRun cfg remote true (some (Json.obj kvs))).exitCode = 0)
    ∧ (∀ (cfg : Config) (remote : Request → Nat) (parsed : Option Json),
        (setEnvVarsRun cfg remote false parsed).exitCode = 1)
    ∧ (∀ (cfg : Config) (remote : Request → Nat),
        (setEnvVarsRun cfg remote true none).exitCode = 1)
    ∧ (∀ (cfg : Config) (remote : Request → Nat) (j : Json),
        isNonNullJsObject j = false →
        (setEnvVarsRun cfg remote true (some j)).exitCode = 1) := by
  refine ⟨?_, ?_, ?_, ?_, ?_, ?_⟩
  · intro cfg r dok
    rcases hfetch : (fetchEnvironmentVariables r).2 with e | vars
    · simp [removeAllEnvironmentVariables, hfetch]
    · by_cases hlen : vars.length == 0
      · have hnil : vars = [] := List.length_eq_zero.mp (by simpa using hlen)
        subst hnil
        simp [removeAllEnvironmentVariables, hfetch]
      · have hlenf : (vars.length == 0) = false := by simpa using hlen
        simp only [removeAllEnvironmentVariables, hfetch, hlenf,
          Bool.false_eq_true, if_false]
        constructor
        · intro hz
          refine ⟨vars, rfl, ?_⟩
          simpa using hz
        · rintro ⟨vars', hv', hall⟩
          have hveq : vars' = vars := (Except.ok.inj hv').symm
          subst hveq
          have hempty : (((vars'.map fun v =>
              deleteVariableRequest cfg v.key).map dok).filter (· == false)) = [] := by
            rw [List.filter_eq_nil_iff]
            intro b hb
            rcases List.mem_map.mp hb with ⟨req, hreq, hbeq⟩
            rcases List.mem_map.mp hreq with ⟨v, hvm, hreqeq⟩
            subst hreqeq
            subst hbeq
            simp [hall v hvm]
          rw [hempty]
          simp
  · intro ff ok b d st
    have h := removePipelinesLoop_exit ff ok b d (st.length + 1) st 1
      (Nat.lt_succ_self _)
    rw [removePipelinesRun] at *
    rw [h]
    by_cases hfe : hasFailureEv
        (removePipelinesLoop ff ok b d (st.length + 1) st 1).1
    · simp [hfe]
    · simp [hfe]
  · intro cfg remote kvs
    simp [setEnvVarsRun, isNonNullJsObject, jsTypeof, isJsNull]
  · intro cfg remote parsed
    rfl
  · intro cfg remote
    rfl
  · intro cfg remote j hj
    simp [setEnvVarsRun, hj]

/-- Witness for C2 (amended) on a concrete two-pipeline project whose
deletions all succeed: exit code 0. -/
theorem exit_code_policy_witness :
    (removePipelinesRun (fun _ => false) (fun _ => true) 20 1000 [7, 8]).2.2 = 0 :=
  (exit_code_policy.2.1 (fun _ => false) (fun _ => true) 20 1000 [7, 8]).mpr
    (by decide)

end GitlabHelpers

namespace GitlabHelpers

/-- Witness for C1 at a concrete key whose update answers 404: the upsert
run starts with the scoped PUT update attempt. -/
theorem setGitLabVariable_upsert_policy_witness :
    (setGitLabVariable cfg0
        (fun r => if r.method == HttpMethod.put then 404 else 201) "K" "v").1.head? =
      some (updateVariableRequest cfg0 "K" "v",
        (fun r => if r.method == HttpMethod.put then 404 else 201)
          (updateVariableRequest cfg0 "K" "v")) :=
  (setGitLabVariable_upsert_policy cfg0
    (fun r => if r.method == HttpMethod.put then 404 else 201) "K" "v").1

end GitlabHelpers
